import Mathlib

/-!
Verification of the BalloonOrganizer specification against the sources.

The development shallowly embeds the relevant TypeScript code:
* the balloon edit dialog (`nameIsUnique`),
* the vehicle table component (`totalWeight`, `capacity`, `infoMessage`),
* the Smart Fill dialog (`secondLegWeightInputVisible`),
* the project-index store (`addProjectMeta`, `updateProjectMeta`),
* and a model of the Smart Fill optimizer, which is described by the
  specification but whose implementation is not among the sources
  (definitions marked `Modelled from the spec`).

JavaScript numbers are embedded as `Int` (all relevant operations are
additions and comparisons on integral values), strings as `String`,
nullable values as `Option`.
-/

namespace BalloonOrg

/-! ## JavaScript array helpers -/

/-- `Array.prototype.findIndex`: index of the first element satisfying `p`,
or `-1` when none does. -/
def jsFindIndex (l : List α) (p : α → Bool) : Int :=
  match l with
  | [] => -1
  | x :: xs =>
    if p x then 0
    else
      match jsFindIndex xs p with
      | r => if r < 0 then -1 else r + 1

/-- `Array.prototype.splice(start, 1, x)`: a negative `start` counts from the
end (clamped at 0), a too-large `start` is clamped to the length; one element
(if available) is removed at the resulting position and `x` is inserted
there. -/
def jsSpliceReplaceOne (l : List α) (start : Int) (x : α) : List α :=
  let s : Nat := if start < 0 then (start + l.length).toNat else min start.toNat l.length
  l.take s ++ x :: l.drop (s + 1)

/-- JavaScript strings, embedded as their character sequences (so that
`toLowerCase` and `trim` stay computable for the kernel). -/
abbrev JSString := List Char

/-- `String.prototype.toLowerCase`, character by character. -/
def lowerStr (s : JSString) : JSString :=
  s.map Char.toLower

/-- `String.prototype.trim`: strip leading and trailing whitespace. -/
def trimStr (s : JSString) : JSString :=
  ((s.dropWhile Char.isWhitespace).reverse.dropWhile Char.isWhitespace).reverse

/-! ## Entities (`app/src-common/entities`), as used by the components -/

/-- A person of the project roster. -/
structure Person where
  id : String
  name : String
  role : String
  weight : Option Int
deriving DecidableEq

/-- Vehicle kind: the `type` discriminator of the `Balloon | Car` union. -/
inductive VehicleType where
  | balloon
  | car
deriving DecidableEq

/-- A vehicle (balloon or car): name, maximum capacity (including the
operator seat), optional maximum weight (balloons) and the eligible
operator identities. -/
structure Vehicle where
  type : VehicleType
  name : JSString
  maxCapacity : Int
  maxWeight : Option Int
  allowedOperatorIds : List String
deriving DecidableEq

/-- A `VehicleAssignment`: nullable operator identity and the ordered
passenger identities. -/
structure VehicleAssignment where
  id : String
  operatorId : Option String
  passengerIds : List String
deriving DecidableEq

/-! ## Balloon edit dialog (`EditBalloonDialog.vue`) -/

/-- `nameIsUnique` of `EditBalloonDialog.vue`: the candidate is trimmed and
lowercased; the balloon's own (lowercased) name is always accepted; otherwise
the candidate is rejected exactly when some entry of `existingNames`
lowercases to it; with no `existingNames` list every candidate is accepted.
`balloon` and `existingNames` are the optional dialog props. -/
def nameIsUnique (balloon : Option Vehicle) (existingNames : Option (List JSString))
    (name : JSString) : Bool :=
  let name := lowerStr (trimStr name)
  let ownMatch : Bool :=
    match balloon with
    | some b => name == lowerStr b.name
    | none => false
  if ownMatch then
    true
  else
    match existingNames with
    | none => true
    | some l => !(l.any fun existingName => lowerStr existingName == name)

/-! ## Vehicle table component (`BaseVehicleTable`) -/

/-- `totalWeight` computed: fold of passenger weights on top of the operator
weight, substituting `personDefaultWeight ?? 0` for a missing person or an
unset weight; a `null` operator also contributes the fallback. `pm` is the
person map of the flight store. -/
def totalWeight (pm : String → Option Person) (personDefaultWeight : Option Int)
    (a : VehicleAssignment) : Int :=
  let fallback := personDefaultWeight.getD 0
  let base : Int :=
    match a.operatorId with
    | some oid => ((pm oid).bind Person.weight).getD fallback
    | none => fallback
  a.passengerIds.foldl (fun acc pid => acc + ((pm pid).bind Person.weight).getD fallback) base

/-- `capacity` computed: a balloon uses its own `maxCapacity`; a car uses the
group's remaining shared capacity (`remaining ?? 0`); a negative value is
clamped to 0; with `hideEmptyCapacity` the passenger count is displayed
instead. -/
def capacity (v : Vehicle) (remaining : Option Int) (hideEmptyCapacity : Bool)
    (a : VehicleAssignment) : Int :=
  let c0 : Int :=
    match v.type with
    | VehicleType.car => remaining.getD 0
    | VehicleType.balloon => v.maxCapacity
  let c1 := if c0 < 0 then 0 else c0
  if hideEmptyCapacity then (a.passengerIds.length : Int) else c1

/-- The kind of badge produced by the `infoMessage` computed. -/
inductive InfoKind where
  | tooManyPassengers
  | operatorNotAllowed
  | weightExceeded
deriving DecidableEq

/-- `infoMessage` computed: first the capacity check
(`passengerIds.length > capacity - 1`), then operator eligibility
(non-null operator not in `allowedOperatorIds`), then the balloon weight
check (`totalWeight > maxWeight` when a maximum weight is declared). -/
def infoMessage (v : Vehicle) (cap : Int) (pm : String → Option Person)
    (personDefaultWeight : Option Int) (a : VehicleAssignment) : Option InfoKind :=
  if (a.passengerIds.length : Int) > cap - 1 then
    some InfoKind.tooManyPassengers
  else if (match a.operatorId with
           | some oid => !(v.allowedOperatorIds.contains oid)
           | none => false) then
    some InfoKind.operatorNotAllowed
  else if v.type == VehicleType.balloon &&
          (match v.maxWeight with
           | some m => decide (totalWeight pm personDefaultWeight a > m)
           | none => false) then
    some InfoKind.weightExceeded
  else
    none

/-- Modelled from the spec: `remainingCapacity` of
`src/composables/reservedCapacity` is not among the sources; per §3 a car's
ceiling is "the group's total minus already-assigned balloon passengers"
(capacity sharing across the group). -/
def remainingCapacity (groupTotalCapacity assignedSeats : Int) : Int :=
  groupTotalCapacity - assignedSeats

/-! ## Smart Fill dialog (`SmartFillDialog.vue`) -/

/-- A flight leg. -/
inductive Leg where
  | first
  | second
deriving DecidableEq

/-- The Smart Fill dialog renders the "Second Leg Fairness Weight" input
under the template condition `options.leg != null`. -/
def secondLegWeightInputVisible (leg : Option Leg) : Bool :=
  leg.isSome

/-! ## Project index store (electron main process) -/

/-- `ProjectMeta` without the derived `isInternal` flag. -/
structure RawProjectMeta where
  id : String
  name : String
  description : String
  createdAt : String
  filePath : String
deriving DecidableEq

/-- An entry of the persisted `projects-index.json` store. -/
structure ProjectMeta where
  id : String
  name : String
  description : String
  createdAt : String
  filePath : String
  isInternal : Bool
deriving DecidableEq

/-- `buildMeta`: rebuild a persisted entry from a raw meta; `internalCheck`
abstracts `isPathInternal` (it consults the Electron `userData` path, an
environment input). -/
def buildMeta (internalCheck : String → Bool) (meta : RawProjectMeta) : ProjectMeta :=
  { id := meta.id
    name := meta.name
    description := meta.description
    createdAt := meta.createdAt
    filePath := meta.filePath
    isInternal := internalCheck meta.filePath }

/-- `addProjectMeta`: read the index; throw when an entry with the same id
exists (the store write is only reached afterwards, so the persisted index
is unchanged in that case); otherwise push the rebuilt meta and write.
Returned as (final persisted index, thrown error message if any). -/
def addProjectMeta (internalCheck : String → Bool) (meta : RawProjectMeta)
    (metas : List ProjectMeta) : List ProjectMeta × Option String :=
  if jsFindIndex metas (fun m => m.id == meta.id) ≠ -1 then
    (metas, some "Project with id already exists")
  else
    (metas ++ [buildMeta internalCheck meta], none)

/-- `updateProjectMeta`: `splice(findIndex(id), 1, buildMeta(meta))` on the
persisted index. -/
def updateProjectMeta (internalCheck : String → Bool) (meta : RawProjectMeta)
    (metas : List ProjectMeta) : List ProjectMeta :=
  jsSpliceReplaceOne metas (jsFindIndex metas (fun m => m.id == meta.id))
    (buildMeta internalCheck meta)

/-! ## Smart Fill optimizer

The optimizer implementation is not among the sources; only its dialog and
the specification describe it. All definitions of this section are
therefore modelled from the spec (§3, §4, §6, §7). -/

/-- Modelled from the spec (§6): the `SmartFillOptions` configuration
surface. -/
structure SmartFillOptions where
  leg : Option Leg
  wPassengerFairness : Int
  wSecondLegFairness : Int
  wPilotFairness : Int
  wVehicleRotation : Int
  wNationalityDiversity : Int
  timeLimit : Int
deriving DecidableEq

/-- Modelled from the spec (§3): a person of the Problem Instance, with the
history needed by the Objective Evaluator. -/
structure SFPerson where
  id : String
  weight : Option Int
  nationality : String
  flightCount : Nat
  operatorCount : Nat
  lastVehicleId : Option String
deriving DecidableEq

/-- Modelled from the spec (§3): a vehicle slot (capacity includes the
operator seat). -/
structure SFVehicle where
  id : String
  capacity : Nat
  eligibleOperatorIds : List String
deriving DecidableEq

/-- Modelled from the spec (§3): the immutable Problem Instance. -/
structure ProblemInstance where
  vehicles : List SFVehicle
  people : List SFPerson
deriving DecidableEq

/-- Modelled from the spec (§3): one slot of a Candidate Solution. -/
structure SFAssignment where
  operatorId : Option String
  passengerIds : List String
deriving DecidableEq

/-- A Candidate Solution, aligned position-wise with `ProblemInstance.vehicles`. -/
abbrev Candidate := List SFAssignment

/-- Modelled from the spec (§7): the failure taxonomy of `runSmartFill`
(the success-path variants carry a plan instead). -/
inductive SolverError where
  | invalidConfiguration
  | infeasible
deriving DecidableEq

/-- Modelled from the spec (§4.1, §7): the options are malformed when the
time limit is non-positive, any weight is negative, or the vehicle set is
empty. -/
def optionsInvalid (opts : SmartFillOptions) (inst : ProblemInstance) : Bool :=
  decide (opts.timeLimit ≤ 0) || decide (opts.wPassengerFairness < 0) ||
  decide (opts.wSecondLegFairness < 0) || decide (opts.wPilotFairness < 0) ||
  decide (opts.wVehicleRotation < 0) || decide (opts.wNationalityDiversity < 0) ||
  inst.vehicles.isEmpty

/-- How often a person is placed (operator or passenger) in a candidate. -/
def countAssigned (cand : Candidate) (pid : String) : Nat :=
  cand.foldl (fun acc a =>
    acc + (if a.operatorId == some pid then 1 else 0) + a.passengerIds.count pid) 0

/-- How often a person holds an operator seat in a candidate. -/
def countOperator (cand : Candidate) (pid : String) : Nat :=
  cand.foldl (fun acc a => acc + (if a.operatorId == some pid then 1 else 0)) 0

/-- Modelled from the spec (§4.3): passenger-fairness penalty — dispersion
of per-person totals (history + current), as a sum of squares (the exact
normalization is unspecified, §9). -/
def passengerFairnessScore (inst : ProblemInstance) (cand : Candidate) : Int :=
  (inst.people.map fun p => ((p.flightCount + countAssigned cand p.id : Nat) : Int) ^ 2).sum

/-- Modelled from the spec (§4.3): operator-fairness penalty, analogous but
scoped to operator seats. -/
def pilotFairnessScore (inst : ProblemInstance) (cand : Candidate) : Int :=
  (inst.people.map fun p => ((p.operatorCount + countOperator cand p.id : Nat) : Int) ^ 2).sum

/-- Modelled from the spec (§4.3): raw second-leg penalty — people placed
on both legs of a jointly planned candidate. -/
def secondLegRaw (inst : ProblemInstance) (cand : Candidate) : Int :=
  ((inst.people.filter fun p => 2 ≤ countAssigned cand p.id).length : Int)

/-- Modelled from the spec (§4.3, §6): the second-leg fairness term is
enabled when `leg` is null (both legs planned jointly) and contributes zero
when a specific leg is set. -/
def secondLegScore (opts : SmartFillOptions) (inst : ProblemInstance) (cand : Candidate) : Int :=
  if opts.leg = none then opts.wSecondLegFairness * secondLegRaw inst cand else 0

/-- The vehicle a person used most recently, from the instance history. -/
def lastVehicleOf (inst : ProblemInstance) (pid : String) : Option String :=
  (inst.people.find? fun p => p.id == pid).bind SFPerson.lastVehicleId

/-- Modelled from the spec (§4.3): vehicle-rotation penalty — people
re-assigned to the vehicle they used in a recent prior flight. -/
def rotationScore (inst : ProblemInstance) (cand : Candidate) : Int :=
  ((inst.vehicles.zip cand).map fun va =>
    ((va.2.passengerIds.filter fun pid => lastVehicleOf inst pid == some va.1.id).length : Int)).sum

/-- Nationality of a person of the instance (empty for an unknown id). -/
def nationalityOf (inst : ProblemInstance) (pid : String) : String :=
  ((inst.people.find? fun p => p.id == pid).map SFPerson.nationality).getD ""

/-- Modelled from the spec (§4.3): nationality-diversity reward — number of
distinct passenger nationalities per vehicle, aggregated. -/
def diversityReward (inst : ProblemInstance) (cand : Candidate) : Int :=
  (cand.map fun a => (((a.passengerIds.map (nationalityOf inst)).eraseDups).length : Int)).sum

/-- Modelled from the spec (§4.3): total score = Σ(weight × sub-score),
with the diversity reward entering negatively; lower is better. -/
def score (opts : SmartFillOptions) (inst : ProblemInstance) (cand : Candidate) : Int :=
  opts.wPassengerFairness * passengerFairnessScore inst cand
    + secondLegScore opts inst cand
    + opts.wPilotFairness * pilotFairnessScore inst cand
    + opts.wVehicleRotation * rotationScore inst cand
    - opts.wNationalityDiversity * diversityReward inst cand

/-- The eligible, still unused operator with the lowest historical operator
count, if any. -/
def pickOperator (people : List SFPerson) (used : List String)
    (elig : List String) : Option SFPerson :=
  match people.filter (fun p => elig.contains p.id && !(used.contains p.id)) with
  | [] => none
  | p :: ps =>
    some (ps.foldl (fun best q => if q.operatorCount < best.operatorCount then q else best) p)

/-- Assign one operator per vehicle greedily, threading the set of used
people; `none` when some vehicle cannot be staffed. -/
def seedOperators (people : List SFPerson) :
    List SFVehicle → List String → Option (List (Option String) × List String)
  | [], used => some ([], used)
  | v :: vs, used =>
    match pickOperator people used v.eligibleOperatorIds with
    | none => none
    | some p =>
      match seedOperators people vs (p.id :: used) with
      | none => none
      | some opsUsed => some (some p.id :: opsUsed.1, opsUsed.2)

/-- Place one passenger into the first slot with a free seat. -/
def firstFitOne : List (Nat × SFAssignment) → String → Option (List (Nat × SFAssignment))
  | [], _ => none
  | (cap, a) :: rest, pid =>
    if a.passengerIds.length < cap then
      some ((cap, { a with passengerIds := a.passengerIds ++ [pid] }) :: rest)
    else
      match firstFitOne rest pid with
      | none => none
      | some rest2 => some ((cap, a) :: rest2)

/-- Modelled from the spec (§4.4 Seeding): greedy initial candidate —
operators first (eligibility respected, lowest historical operator count
preferred), then passengers first-fit into the remaining seats
(capacity − 1 per vehicle); `none` when no feasible seed exists. -/
def seedCandidate (inst : ProblemInstance) : Option Candidate :=
  match seedOperators inst.people inst.vehicles [] with
  | none => none
  | some opsUsed =>
    let slots := (inst.vehicles.zip opsUsed.1).map fun vop =>
      (vop.1.capacity - 1, SFAssignment.mk vop.2 [])
    let rest := inst.people.filter fun p => !(opsUsed.2.contains p.id)
    match rest.foldlM (fun s p => firstFitOne s p.id) slots with
    | none => none
    | some s => some (s.map Prod.snd)

/-- State of one annealing walk. -/
structure EngineState where
  rng : Nat
  current : Candidate
  currentScore : Int
  best : Candidate
  bestScore : Int
deriving DecidableEq

/-- The seeded pseudo-random generator (a 31-bit linear congruential
generator). -/
def lcg (n : Nat) : Nat :=
  (n * 1103515245 + 12345) % 2147483648

/-- Number of occupied passenger positions of a candidate. -/
def totalPassengerSlots (cand : Candidate) : Nat :=
  (cand.map fun a => a.passengerIds.length).sum

/-- Vehicle/passenger coordinates of the k-th flattened passenger position. -/
def posOfIdx : Candidate → Nat → Nat × Nat
  | [], _ => (0, 0)
  | a :: rest, k =>
    if k < a.passengerIds.length then (0, k)
    else
      match posOfIdx rest (k - a.passengerIds.length) with
      | (vi, pj) => (vi + 1, pj)

/-- The passenger at the given coordinates, if any. -/
def getPassengerAt (cand : Candidate) (vi pj : Nat) : Option String :=
  cand[vi]?.bind fun a => a.passengerIds[pj]?

/-- Overwrite the passenger at the given coordinates (no-op when out of
range). -/
def setPassengerAt (cand : Candidate) (vi pj : Nat) (x : String) : Candidate :=
  match cand[vi]? with
  | none => cand
  | some a => cand.set vi { a with passengerIds := a.passengerIds.set pj x }

/-- Swap the passengers at two coordinate pairs (its own inverse, §4.4). -/
def swapPassengers (cand : Candidate) (p q : Nat × Nat) : Candidate :=
  match getPassengerAt cand p.1 p.2, getPassengerAt cand q.1 q.2 with
  | some x, some y => setPassengerAt (setPassengerAt cand p.1 p.2 y) q.1 q.2 x
  | _, _ => cand

/-- Modelled from the spec (§4.4 Improving): one iteration — draw a local
move from the seeded generator (swap two passenger positions), evaluate the
score of the moved candidate, accept strict improvements and occasionally a
regression (the exact annealing schedule is unspecified, §9), and track the
best candidate seen so far independently of the current one. -/
def engineStep (opts : SmartFillOptions) (inst : ProblemInstance)
    (s : EngineState) : EngineState :=
  let r1 := lcg s.rng
  let r2 := lcg r1
  let r3 := lcg r2
  let n := totalPassengerSlots s.current
  if n = 0 then { s with rng := r3 }
  else
    let cand := swapPassengers s.current (posOfIdx s.current (r1 % n)) (posOfIdx s.current (r2 % n))
    let sc := score opts inst cand
    if sc < s.currentScore || decide (r3 % 1000 < 10) then
      if sc < s.bestScore then
        { rng := r3, current := cand, currentScore := sc, best := cand, bestScore := sc }
      else
        { s with rng := r3, current := cand, currentScore := sc }
    else
      { s with rng := r3 }

/-- Iterate the Improving loop for the given budget and return the best
candidate with its score. -/
def runEngine (opts : SmartFillOptions) (inst : ProblemInstance) :
    Nat → EngineState → Candidate × Int
  | 0, s => (s.best, s.bestScore)
  | n + 1, s => runEngine opts inst n (engineStep opts inst s)

/-- Modelled from the spec (§4.4): a run of the Improving loop as a
relation; the budget counts the remaining iterations (the wall-clock budget
abstracted to a deterministic iteration count derived from the options). -/
inductive EngineRun (opts : SmartFillOptions) (inst : ProblemInstance) :
    Nat → EngineState → Candidate × Int → Prop where
  | done (s : EngineState) : EngineRun opts inst 0 s (s.best, s.bestScore)
  | step (n : Nat) (s : EngineState) (r : Candidate × Int)
      (h : EngineRun opts inst n (engineStep opts inst s) r) :
      EngineRun opts inst (n + 1) s r

/-- Iteration budget derived from `timeLimit` (a fixed batch size per
second of budget). -/
def iterBudget (opts : SmartFillOptions) : Nat :=
  opts.timeLimit.toNat * 64

/-- The initial engine state for a seed candidate and an RNG seed. -/
def initState (opts : SmartFillOptions) (inst : ProblemInstance) (seed : Nat)
    (c : Candidate) : EngineState :=
  { rng := seed, current := c, currentScore := score opts inst c,
    best := c, bestScore := score opts inst c }

/-- Modelled from the spec (§6, §7): a run of `runSmartFill` as a relation.
The options are validated first — `InvalidConfiguration` is produced before
any search iteration and without any state being built or mutated; then the
greedy seed is built (`infeasible` when none exists); then the Improving
loop runs. -/
inductive RunSmartFill (opts : SmartFillOptions) (inst : ProblemInstance) (seed : Nat) :
    Except SolverError (Candidate × Int) → Prop where
  | invalid (h : optionsInvalid opts inst = true) :
      RunSmartFill opts inst seed (Except.error SolverError.invalidConfiguration)
  | noSeed (h : optionsInvalid opts inst = false) (h2 : seedCandidate inst = none) :
      RunSmartFill opts inst seed (Except.error SolverError.infeasible)
  | success (c : Candidate) (r : Candidate × Int)
      (h : optionsInvalid opts inst = false) (h2 : seedCandidate inst = some c)
      (h3 : EngineRun opts inst (iterBudget opts) (initState opts inst seed c) r) :
      RunSmartFill opts inst seed (Except.ok r)

/-- The functional form of `runSmartFill` (one canonical run). -/
def runSmartFillFn (opts : SmartFillOptions) (inst : ProblemInstance)
    (seed : Nat) : Except SolverError (Candidate × Int) :=
  if optionsInvalid opts inst then Except.error SolverError.invalidConfiguration
  else
    match seedCandidate inst with
    | none => Except.error SolverError.infeasible
    | some c => Except.ok (runEngine opts inst (iterBudget opts) (initState opts inst seed c))

/-! ## Concrete sample data -/

/-- Sample person map: one eligible operator and one passenger. -/
def pmW : String → Option Person := fun pid =>
  if pid = "o1" then some { id := "o1", name := "Olga", role := "counselor", weight := some 80 }
  else if pid = "p1" then some { id := "p1", name := "Pat", role := "participant", weight := some 30 }
  else none

/-- The operator person of the sample map. -/
def opW : Person :=
  { id := "o1", name := "Olga", role := "counselor", weight := some 80 }

/-- Sample balloon: capacity 3, maximum weight 100, operator `o1` allowed. -/
def balloonW : Vehicle :=
  { type := VehicleType.balloon, name := "Aloft".data, maxCapacity := 3,
    maxWeight := some 100, allowedOperatorIds := ["o1"] }

/-- Sample assignment: operator `o1` and passenger `p1`. -/
def asgW : VehicleAssignment :=
  { id := "b1", operatorId := some "o1", passengerIds := ["p1"] }

/-- Sample car of a vehicle group. -/
def carW : Vehicle :=
  { type := VehicleType.car, name := "Van".data, maxCapacity := 99,
    maxWeight := none, allowedOperatorIds := ["o1"] }

/-- Assignment with an operator that is not in the eligible set. -/
def asgBadOpW : VehicleAssignment :=
  { id := "b1", operatorId := some "o9", passengerIds := ["p1"] }

/-- Assignment without an operator. -/
def asgNoOpW : VehicleAssignment :=
  { id := "b1", operatorId := none, passengerIds := ["p1"] }

/-- The path-internality check of the sample environment. -/
def icW : String → Bool := fun _ => false

/-- Raw meta with id `a`. -/
def rmA : RawProjectMeta :=
  { id := "a", name := "Alpha", description := "first", createdAt := "2024", filePath := "/p/a.json" }

/-- Raw meta with id `c`, not present in the sample index. -/
def rmC : RawProjectMeta :=
  { id := "c", name := "Gamma", description := "third", createdAt := "2025", filePath := "/p/c.json" }

/-- Persisted entry with id `a`. -/
def pmetaA : ProjectMeta :=
  { id := "a", name := "Alpha", description := "first", createdAt := "2024",
    filePath := "/p/a.json", isInternal := false }

/-- Persisted entry with id `b`. -/
def pmetaB : ProjectMeta :=
  { id := "b", name := "Beta", description := "second", createdAt := "2024",
    filePath := "/p/b.json", isInternal := false }

/-- Sample persisted index. -/
def idxW : List ProjectMeta := [pmetaA, pmetaB]

/-- Sample Problem Instance: one vehicle, one eligible operator. -/
def instW : ProblemInstance :=
  { vehicles := [{ id := "b1", capacity := 2, eligibleOperatorIds := ["o1"] }],
    people := [{ id := "o1", weight := some 80, nationality := "de", flightCount := 0,
                 operatorCount := 0, lastVehicleId := none }] }

/-- Well-formed options with all weights 1 and a one-second budget. -/
def goodOptsW : SmartFillOptions :=
  { leg := none, wPassengerFairness := 1, wSecondLegFairness := 1, wPilotFairness := 1,
    wVehicleRotation := 1, wNationalityDiversity := 1, timeLimit := 1 }

/-- Malformed options: negative time limit. -/
def badOptsW : SmartFillOptions :=
  { goodOptsW with timeLimit := -1 }

/-- Options that plan only the first leg, with second-leg weight 3. -/
def optsLegFirstW : SmartFillOptions :=
  { goodOptsW with leg := some Leg.first, wSecondLegFairness := 3 }

/-- Options that plan both legs jointly, with second-leg weight 3. -/
def optsLegNoneW : SmartFillOptions :=
  { goodOptsW with leg := none, wSecondLegFairness := 3 }

/-- Instance whose single person appears in both legs of the sample
candidate below. -/
def instC1 : ProblemInstance :=
  { vehicles := [{ id := "v1", capacity := 2, eligibleOperatorIds := [] },
                 { id := "v2", capacity := 2, eligibleOperatorIds := [] }],
    people := [{ id := "p1", weight := none, nationality := "de", flightCount := 0,
                 operatorCount := 0, lastVehicleId := none }] }

/-- Candidate placing person `p1` on both legs. -/
def candC1 : Candidate :=
  [{ operatorId := none, passengerIds := ["p1"] },
   { operatorId := none, passengerIds := ["p1"] }]

/-! ## Helper lemmas -/

theorem foldl_add_map (l : List α) (f : α → Int) (i : Int) :
    l.foldl (fun acc x => acc + f x) i = i + (l.map f).sum := by
  induction l generalizing i with
  | nil => simp
  | cons x xs ih => simp [ih, add_assoc]

theorem infoMessage_ne_tooMany (v : Vehicle) (cap : Int) (pm : String → Option Person)
    (dflt : Option Int) (a : VehicleAssignment)
    (h : ¬((a.passengerIds.length : Int) > cap - 1)) :
    infoMessage v cap pm dflt a ≠ some InfoKind.tooManyPassengers := by
  unfold infoMessage
  rw [if_neg h]
  split
  · simp
  · split <;> simp

/-! ## C2: capacity violations (`infoMessage`, capacity branch) -/

/-- C2: the capacity violation is reported exactly when the number of
assigned passengers exceeds `capacity − 1`; equivalently, no capacity
warning is shown exactly when `|passengers| + 1 ≤ capacity`. -/
theorem infoMessage_capacity_iff (v : Vehicle) (cap : Int) (pm : String → Option Person)
    (dflt : Option Int) (a : VehicleAssignment) :
    (infoMessage v cap pm dflt a = some InfoKind.tooManyPassengers ↔
      (a.passengerIds.length : Int) > cap - 1) ∧
    (infoMessage v cap pm dflt a ≠ some InfoKind.tooManyPassengers ↔
      (a.passengerIds.length : Int) + 1 ≤ cap) := by
  by_cases h : (a.passengerIds.length : Int) > cap - 1
  · have he : infoMessage v cap pm dflt a = some InfoKind.tooManyPassengers := by
      unfold infoMessage
      rw [if_pos h]
    exact ⟨iff_of_true he h, iff_of_false (by simp [he]) (by omega)⟩
  · have hne := infoMessage_ne_tooMany v cap pm dflt a h
    exact ⟨iff_of_false hne h, iff_of_true hne (by omega)⟩

theorem infoMessage_eq_opNotAllowed_iff (v : Vehicle) (cap : Int) (pm : String → Option Person)
    (dflt : Option Int) (a : VehicleAssignment) :
    infoMessage v cap pm dflt a = some InfoKind.operatorNotAllowed ↔
      ¬((a.passengerIds.length : Int) > cap - 1) ∧
      (match a.operatorId with
       | some oid => !(v.allowedOperatorIds.contains oid)
       | none => false) = true := by
  unfold infoMessage
  split
  · next hgt => exact iff_of_false (by simp) (fun hh => hh.1 hgt)
  · next hgt =>
    split
    · next hcond => exact iff_of_true rfl ⟨hgt, hcond⟩
    · next hcond =>
      refine iff_of_false ?_ (fun hh => hcond hh.2)
      split <;> simp

theorem infoMessage_eq_weight_iff (v : Vehicle) (cap : Int) (pm : String → Option Person)
    (dflt : Option Int) (a : VehicleAssignment) :
    infoMessage v cap pm dflt a = some InfoKind.weightExceeded ↔
      ¬((a.passengerIds.length : Int) > cap - 1) ∧
      (match a.operatorId with
       | some oid => !(v.allowedOperatorIds.contains oid)
       | none => false) = false ∧
      (v.type == VehicleType.balloon &&
       (match v.maxWeight with
        | some m => decide (totalWeight pm dflt a > m)
        | none => false)) = true := by
  unfold infoMessage
  split
  · next hgt => exact iff_of_false (by simp) (fun hh => hh.1 hgt)
  · next hgt =>
    split
    · next hcond =>
      refine iff_of_false (by simp) (fun hh => ?_)
      rw [hh.2.1] at hcond
      exact absurd hcond (by simp)
    · next hcond =>
      split
      · next hw => exact iff_of_true rfl ⟨hgt, Bool.eq_false_iff.mpr hcond, hw⟩
      · next hw => exact iff_of_false (by simp) (fun hh => hw hh.2.2)

/-! ## C3: operator eligibility (`infoMessage`, eligibility branch) -/

/-- C3 (amended): when the passenger count is at most `capacity − 1` (so no
capacity violation masks it), an operator-eligibility violation is reported
iff the operator identity is non-null and not in the vehicle's eligible set;
a null operator never triggers it. -/
theorem infoMessage_operator_iff (v : Vehicle) (cap : Int) (pm : String → Option Person)
    (dflt : Option Int) (a : VehicleAssignment)
    (h : (a.passengerIds.length : Int) ≤ cap - 1) :
    (infoMessage v cap pm dflt a = some InfoKind.operatorNotAllowed ↔
      ∃ oid, a.operatorId = some oid ∧ v.allowedOperatorIds.contains oid = false) ∧
    (a.operatorId = none → infoMessage v cap pm dflt a ≠ some InfoKind.operatorNotAllowed) := by
  have hnot : ¬((a.passengerIds.length : Int) > cap - 1) := by omega
  constructor
  · rw [infoMessage_eq_opNotAllowed_iff]
    cases ha : a.operatorId with
    | none => simp [hnot, ha]
    | some oid => simp [hnot, ha]
  · intro hnone
    rw [Ne, infoMessage_eq_opNotAllowed_iff]
    simp [hnone]

/-- C3, counterexample to the claim as stated: with capacity 1 and one
passenger the passenger count does not exceed the capacity, and the
operator is non-null and ineligible, yet no eligibility violation is
reported — the capacity branch masks it. -/
theorem infoMessage_operator_masked_at_capacity :
    ((asgBadOpW.passengerIds.length : Int) ≤ 1) ∧
    asgBadOpW.operatorId = some "o9" ∧
    balloonW.allowedOperatorIds.contains "o9" = false ∧
    infoMessage balloonW 1 pmW none asgBadOpW ≠ some InfoKind.operatorNotAllowed ∧
    infoMessage balloonW 1 pmW none asgBadOpW = some InfoKind.tooManyPassengers := by
  refine ⟨by decide, by decide, by decide, ?_, ?_⟩ <;> decide

/-! ## C4: weight violations (`totalWeight` and `infoMessage`, weight branch) -/

/-- C4: for a balloon with a declared maximum weight and no higher-priority
capacity or eligibility violation, the total weight is the operator's
weight plus the passenger weights (the configured default substituted for
unset weights), and the weight violation is reported exactly when that
total exceeds the maximum weight. -/
theorem infoMessage_weight_iff (v : Vehicle) (cap : Int) (pm : String → Option Person)
    (a : VehicleAssignment) (oid : String) (op : Person) (m d : Int)
    (hv : v.type = VehicleType.balloon) (hm : v.maxWeight = some m)
    (hcap : (a.passengerIds.length : Int) ≤ cap - 1)
    (hop : a.operatorId = some oid) (hpm : pm oid = some op)
    (helig : v.allowedOperatorIds.contains oid = true) :
    totalWeight pm (some d) a =
      op.weight.getD d + ((a.passengerIds.map fun pid => ((pm pid).bind Person.weight).getD d).sum) ∧
    (infoMessage v cap pm (some d) a = some InfoKind.weightExceeded ↔
      totalWeight pm (some d) a > m) := by
  have hnot : ¬((a.passengerIds.length : Int) > cap - 1) := by omega
  have helig2 : oid ∈ v.allowedOperatorIds := by simpa using helig
  constructor
  · unfold totalWeight
    simp only [hop, hpm, Option.getD_some, Option.some_bind]
    exact foldl_add_map a.passengerIds (fun pid => ((pm pid).bind Person.weight).getD d) _
  · rw [infoMessage_eq_weight_iff]
    simp [hnot, hop, helig2, hv, hm]

/-! ## C5: shared group capacity for cars (`capacity` computed) -/

/-- C5: a car's displayed passenger-capacity ceiling is derived from the
group's shared pool — the group total minus seats already assigned, a
negative remainder clamped to zero — and does not depend on the car's own
fixed `maxCapacity`. -/
theorem capacity_car_shared_pool (v : Vehicle) (hv : v.type = VehicleType.car)
    (tot asg m : Int) (a : VehicleAssignment) :
    capacity v (some (remainingCapacity tot asg)) false a = max (tot - asg) 0 ∧
    capacity { v with maxCapacity := m } (some (remainingCapacity tot asg)) false a =
      capacity v (some (remainingCapacity tot asg)) false a := by
  unfold capacity remainingCapacity
  rw [hv]
  constructor
  · simp only [Option.getD_some, if_false, Bool.false_eq_true, ite_false]
    omega
  · rfl

/-! ## C10: name uniqueness in the balloon edit dialog (`nameIsUnique`) -/

/-- C10: `nameIsUnique` decides on the trimmed, lowercased candidate — any
candidate whose trimmed lowercase form equals the balloon's own lowercased
current name is accepted; otherwise a candidate matching some entry of
`existingNames` case-insensitively is rejected; and without an
`existingNames` list every candidate is accepted. -/
theorem nameIsUnique_spec (b : Vehicle) (ens : List JSString) (cand : JSString) :
    (∀ c2 : JSString, lowerStr (trimStr c2) = lowerStr b.name →
      nameIsUnique (some b) (some ens) c2 = true) ∧
    ((∃ e ∈ ens, lowerStr e = lowerStr (trimStr cand)) →
      lowerStr (trimStr cand) ≠ lowerStr b.name →
      nameIsUnique (some b) (some ens) cand = false) ∧
    (∀ bo : Option Vehicle, nameIsUnique bo none cand = true) := by
  refine ⟨?_, ?_, ?_⟩
  · intro c2 hc2
    simp only [nameIsUnique]
    rw [hc2]
    simp
  · rintro ⟨e, hmem, he⟩ hne
    have hown : (lowerStr (trimStr cand) == lowerStr b.name) = false :=
      beq_eq_false_iff_ne.mpr hne
    have hany : ens.any (fun e2 => lowerStr e2 == lowerStr (trimStr cand)) = true :=
      List.any_eq_true.mpr ⟨e, hmem, beq_iff_eq.mpr he⟩
    simp only [nameIsUnique, hown, hany]
    simp
  · intro bo
    simp only [nameIsUnique]
    cases bo with
    | none => simp
    | some b2 => split <;> simp

/-! ## C1: second-leg fairness weight visibility (Smart Fill dialog) -/

/-- C1 (code bug): the dialog renders the second-leg fairness weight input
exactly when `leg` is non-null — precisely the configurations in which the
second-leg fairness term contributes zero — and hides it in the joint-legs
case (`leg` null) where the term is enabled: at `leg = null` the input is
not shown although the weight matters, at `leg = first` it is shown
although the term is inert. -/
theorem secondLegWeight_input_inverted :
    secondLegWeightInputVisible none = false ∧
    secondLegWeightInputVisible (some Leg.first) = true ∧
    secondLegScore optsLegFirstW instC1 candC1 = 0 ∧
    secondLegScore optsLegNoneW instC1 candC1 = 3 := by
  refine ⟨rfl, rfl, ?_, ?_⟩ <;> decide

/-! ## List lemmas for the project index store -/

theorem jsFindIndex_ge (l : List α) (p : α → Bool) : -1 ≤ jsFindIndex l p := by
  induction l with
  | nil => simp [jsFindIndex]
  | cons x xs ih =>
    simp only [jsFindIndex]
    split
    · omega
    · split <;> omega

theorem jsFindIndex_eq_neg_one_iff (l : List α) (p : α → Bool) :
    jsFindIndex l p = -1 ↔ ∀ a ∈ l, p a = false := by
  induction l with
  | nil => simp [jsFindIndex]
  | cons x xs ih =>
    simp only [jsFindIndex]
    by_cases hx : p x = true
    · rw [if_pos hx]
      constructor
      · intro h0; exact absurd h0 (by norm_num)
      · intro hall
        rw [hall x (by simp)] at hx
        exact absurd hx (by simp)
    · rw [if_neg hx]
      have hr := jsFindIndex_ge xs p
      constructor
      · intro h a ha
        rcases List.mem_cons.mp ha with h1 | h2
        · rw [h1]; exact Bool.eq_false_iff.mpr hx
        · apply (ih.mp ?_) a h2
          by_cases hlt : jsFindIndex xs p < 0
          · omega
          · rw [if_neg hlt] at h; omega
      · intro hall
        have hxs : jsFindIndex xs p = -1 :=
          ih.mpr (fun a ha => hall a (List.mem_cons_of_mem _ ha))
        rw [hxs]
        norm_num

theorem jsFindIndex_append_cons (pre : List α) (entry : α) (post : List α) (p : α → Bool)
    (hpre : ∀ m ∈ pre, p m = false) (he : p entry = true) :
    jsFindIndex (pre ++ entry :: post) p = (pre.length : Int) := by
  induction pre with
  | nil => simp [jsFindIndex, he]
  | cons x xs ih =>
    have hx : p x = false := hpre x (by simp)
    simp only [List.cons_append, jsFindIndex, List.append_eq]
    rw [if_neg (by simp [hx])]
    rw [ih (fun m hm => hpre m (by simp [hm]))]
    rw [if_neg (by omega)]
    simp only [List.length_cons]
    push_cast
    ring

theorem jsSpliceReplaceOne_at_nat (l : List α) (j : Nat) (x : α) (hj : j < l.length) :
    jsSpliceReplaceOne l (j : Int) x = l.set j x := by
  unfold jsSpliceReplaceOne
  rw [if_neg (by omega)]
  have hs : min ((j : Int)).toNat l.length = j := by
    simp only [Int.toNat_natCast]
    omega
  rw [hs]
  exact (List.set_eq_take_cons_drop x hj).symm

theorem jsSpliceReplaceOne_neg_one (l : List α) (x : α) :
    jsSpliceReplaceOne l (-1) x = l.dropLast ++ [x] := by
  unfold jsSpliceReplaceOne
  rw [if_pos (by norm_num)]
  have hs : ((-1 : Int) + (l.length : Int)).toNat = l.length - 1 := by omega
  rw [hs]
  show List.take (l.length - 1) l ++ x :: List.drop (l.length - 1 + 1) l = l.dropLast ++ [x]
  rw [List.drop_eq_nil_of_le (by omega), List.dropLast_eq_take]

theorem set_append_length (pre : List α) (entry : α) (post : List α) (b : α) :
    (pre ++ entry :: post).set pre.length b = pre ++ b :: post := by
  induction pre with
  | nil => rfl
  | cons x xs ih =>
    show x :: (xs ++ entry :: post).set xs.length b = x :: (xs ++ b :: post)
    rw [ih]

/-! ## C8: `updateProjectMeta` -/

/-- C8: when an entry with the meta's id exists, `updateProjectMeta`
replaces exactly the first such entry in place (order and all other entries
unchanged); when no entry has that id, it removes the last entry and
appends the rebuilt meta (`splice(-1, 1, …)` semantics). -/
theorem updateProjectMeta_replace_or_rotate (ic : String → Bool) (meta : RawProjectMeta) :
    (∀ (pre : List ProjectMeta) (entry : ProjectMeta) (post : List ProjectMeta),
      entry.id = meta.id → (∀ m ∈ pre, m.id ≠ meta.id) →
      updateProjectMeta ic meta (pre ++ entry :: post) =
        pre ++ buildMeta ic meta :: post) ∧
    (∀ metas : List ProjectMeta, (∀ m ∈ metas, m.id ≠ meta.id) →
      updateProjectMeta ic meta metas = metas.dropLast ++ [buildMeta ic meta]) := by
  constructor
  · intro pre entry post he hpre
    unfold updateProjectMeta
    rw [jsFindIndex_append_cons pre entry post _
          (fun m hm => beq_eq_false_iff_ne.mpr (hpre m hm)) (by simp [he])]
    rw [jsSpliceReplaceOne_at_nat _ _ _ (by simp)]
    exact set_append_length pre entry post (buildMeta ic meta)
  · intro metas hall
    unfold updateProjectMeta
    rw [(jsFindIndex_eq_neg_one_iff metas _).mpr
          (fun m hm => beq_eq_false_iff_ne.mpr (hall m hm))]
    exact jsSpliceReplaceOne_neg_one metas (buildMeta ic meta)

/-! ## C9: `addProjectMeta` -/

/-- C9: `addProjectMeta` throws exactly when the persisted index already
contains an entry with the same id; in that case the persisted index is
unchanged (the store write is only reached after the duplicate check);
otherwise exactly the rebuilt meta is appended. -/
theorem addProjectMeta_duplicate_guard (ic : String → Bool) (meta : RawProjectMeta)
    (metas : List ProjectMeta) :
    ((addProjectMeta ic meta metas).2.isSome = true ↔ ∃ m ∈ metas, m.id = meta.id) ∧
    ((∃ m ∈ metas, m.id = meta.id) → (addProjectMeta ic meta metas).1 = metas) ∧
    ((∀ m ∈ metas, m.id ≠ meta.id) →
      (addProjectMeta ic meta metas).1 = metas ++ [buildMeta ic meta]) := by
  unfold addProjectMeta
  by_cases hdup : ∃ m ∈ metas, m.id = meta.id
  · obtain ⟨m0, hm0, hid⟩ := hdup
    have hne : jsFindIndex metas (fun m => m.id == meta.id) ≠ -1 := by
      rw [Ne, jsFindIndex_eq_neg_one_iff]
      push_neg
      exact ⟨m0, hm0, by simp [hid]⟩
    rw [if_pos hne]
    refine ⟨iff_of_true rfl ⟨m0, hm0, hid⟩, fun _ => rfl, fun hall => absurd hid (hall m0 hm0)⟩
  · have heq : jsFindIndex metas (fun m => m.id == meta.id) = -1 :=
      (jsFindIndex_eq_neg_one_iff metas _).mpr
        (fun m hm => beq_eq_false_iff_ne.mpr (fun he => hdup ⟨m, hm, he⟩))
    rw [if_neg (not_not.mpr heq)]
    exact ⟨iff_of_false (by simp) hdup, fun hd => absurd hd hdup, fun _ => rfl⟩

/-! ## Smart Fill engine lemmas -/

theorem engineRun_deterministic {opts : SmartFillOptions} {inst : ProblemInstance}
    {n : Nat} {s : EngineState} {r1 r2 : Candidate × Int}
    (h1 : EngineRun opts inst n s r1) : EngineRun opts inst n s r2 → r1 = r2 := by
  induction h1 with
  | done s =>
    intro h2
    cases h2
    rfl
  | step n s r h ih =>
    intro h2
    cases h2 with
    | step _ _ _ h2a => exact ih h2a

theorem runEngine_run (opts : SmartFillOptions) (inst : ProblemInstance) :
    ∀ (n : Nat) (s : EngineState), EngineRun opts inst n s (runEngine opts inst n s) := by
  intro n
  induction n with
  | zero => intro s; exact EngineRun.done s
  | succ k ih => intro s; exact EngineRun.step k s _ (ih (engineStep opts inst s))

theorem runSmartFill_total (opts : SmartFillOptions) (inst : ProblemInstance) (seed : Nat) :
    RunSmartFill opts inst seed (runSmartFillFn opts inst seed) := by
  unfold runSmartFillFn
  by_cases h : optionsInvalid opts inst = true
  · rw [if_pos h]
    exact RunSmartFill.invalid h
  · have hf : optionsInvalid opts inst = false := Bool.eq_false_iff.mpr h
    rw [if_neg h]
    cases hseed : seedCandidate inst with
    | none => exact RunSmartFill.noSeed hf hseed
    | some c => exact RunSmartFill.success c _ hf hseed (runEngine_run opts inst _ _)

theorem optionsInvalid_iff (opts : SmartFillOptions) (inst : ProblemInstance) :
    optionsInvalid opts inst = true ↔
      (opts.timeLimit ≤ 0 ∨ opts.wPassengerFairness < 0 ∨ opts.wSecondLegFairness < 0 ∨
       opts.wPilotFairness < 0 ∨ opts.wVehicleRotation < 0 ∨ opts.wNationalityDiversity < 0 ∨
       inst.vehicles = []) := by
  unfold optionsInvalid
  simp [List.isEmpty_iff, or_assoc]

/-! ## C6: fail-fast option validation (`runSmartFill`) -/

/-- C6 (spec-modelled): a run of `runSmartFill` produces
`InvalidConfiguration` if and only if the options are malformed — the time
limit is non-positive, some weight is negative, or the vehicle set is
empty; by construction of `RunSmartFill` this outcome involves no search
iteration and no state. -/
theorem runSmartFill_invalidConfiguration_iff (opts : SmartFillOptions)
    (inst : ProblemInstance) (seed : Nat) (r : Except SolverError (Candidate × Int))
    (h : RunSmartFill opts inst seed r) :
    r = Except.error SolverError.invalidConfiguration ↔
      (opts.timeLimit ≤ 0 ∨ opts.wPassengerFairness < 0 ∨ opts.wSecondLegFairness < 0 ∨
       opts.wPilotFairness < 0 ∨ opts.wVehicleRotation < 0 ∨ opts.wNationalityDiversity < 0 ∨
       inst.vehicles = []) := by
  cases h with
  | invalid hv => exact iff_of_true rfl ((optionsInvalid_iff opts inst).mp hv)
  | noSeed hv hs =>
    refine iff_of_false (by simp) (fun hbad => ?_)
    have := (optionsInvalid_iff opts inst).mpr hbad
    rw [hv] at this
    exact absurd this (by simp)
  | success c r2 hv hs hrun =>
    refine iff_of_false (by simp) (fun hbad => ?_)
    have := (optionsInvalid_iff opts inst).mpr hbad
    rw [hv] at this
    exact absurd this (by simp)

/-! ## C7: determinism of the Search Engine (`runSmartFill`) -/

/-- C7 (spec-modelled): any two runs of `runSmartFill` on the same Problem
Instance, options and random seed produce identical results (candidates and
scores). -/
theorem runSmartFill_deterministic (opts : SmartFillOptions) (inst : ProblemInstance)
    (seed : Nat) (r1 r2 : Except SolverError (Candidate × Int))
    (h1 : RunSmartFill opts inst seed r1) (h2 : RunSmartFill opts inst seed r2) :
    r1 = r2 := by
  cases h1 with
  | invalid hv1 =>
    cases h2 with
    | invalid hv2 => rfl
    | noSeed hv2 hs2 =>
      rw [hv1] at hv2
      exact absurd hv2 (by simp)
    | success c r hv2 hs2 hr2 =>
      rw [hv1] at hv2
      exact absurd hv2 (by simp)
  | noSeed hv1 hs1 =>
    cases h2 with
    | invalid hv2 =>
      rw [hv1] at hv2
      exact absurd hv2 (by simp)
    | noSeed hv2 hs2 => rfl
    | success c r hv2 hs2 hr2 =>
      rw [hs1] at hs2
      exact absurd hs2 (by simp)
  | success c r hv1 hs1 hr1 =>
    cases h2 with
    | invalid hv2 =>
      rw [hv1] at hv2
      exact absurd hv2 (by simp)
    | noSeed hv2 hs2 =>
      rw [hs1] at hs2
      exact absurd hs2 (by simp)
    | success c2 r2a hv2 hs2 hr2 =>
      rw [hs1] at hs2
      cases Option.some.inj hs2
      exact congrArg Except.ok (engineRun_deterministic hr1 hr2)

/-! ## Witnesses -/

theorem infoMessage_operator_iff_witness :
    infoMessage balloonW 3 pmW none asgBadOpW = some InfoKind.operatorNotAllowed ∧
    infoMessage balloonW 3 pmW none asgNoOpW ≠ some InfoKind.operatorNotAllowed :=
  ⟨(infoMessage_operator_iff balloonW 3 pmW none asgBadOpW (by decide)).1.mpr
      ⟨"o9", rfl, by decide⟩,
   (infoMessage_operator_iff balloonW 3 pmW none asgNoOpW (by decide)).2 rfl⟩

theorem infoMessage_weight_iff_witness :
    totalWeight pmW (some 70) asgW = 110 ∧
    infoMessage balloonW 3 pmW (some 70) asgW = some InfoKind.weightExceeded :=
  ⟨by decide,
   (infoMessage_weight_iff balloonW 3 pmW asgW "o1" opW 100 70 rfl rfl (by decide) rfl
      (by decide) (by decide)).2.mpr (by decide)⟩

theorem capacity_car_shared_pool_witness :
    capacity carW (some (remainingCapacity 5 2)) false asgW = 3 ∧
    capacity { carW with maxCapacity := 0 } (some (remainingCapacity 5 2)) false asgW =
      capacity carW (some (remainingCapacity 5 2)) false asgW :=
  ⟨(capacity_car_shared_pool carW rfl 5 2 0 asgW).1.trans (by decide),
   (capacity_car_shared_pool carW rfl 5 2 0 asgW).2⟩

theorem runSmartFill_invalidConfiguration_iff_witness :
    runSmartFillFn badOptsW instW 0 = Except.error SolverError.invalidConfiguration ∧
    badOptsW.timeLimit ≤ 0 :=
  ⟨(runSmartFill_invalidConfiguration_iff badOptsW instW 0 _
      (runSmartFill_total badOptsW instW 0)).mpr (Or.inl (by decide)),
   by decide⟩

theorem runSmartFill_deterministic_witness :
    runSmartFillFn goodOptsW instW 7 = runSmartFillFn goodOptsW instW 7 :=
  runSmartFill_deterministic goodOptsW instW 7 _ _
    (runSmartFill_total goodOptsW instW 7) (runSmartFill_total goodOptsW instW 7)

theorem updateProjectMeta_replace_or_rotate_witness :
    updateProjectMeta icW rmA idxW = [buildMeta icW rmA, pmetaB] ∧
    updateProjectMeta icW rmC idxW = [pmetaA, buildMeta icW rmC] :=
  ⟨(updateProjectMeta_replace_or_rotate icW rmA).1 [] pmetaA [pmetaB] (by decide) (by simp),
   (updateProjectMeta_replace_or_rotate icW rmC).2 idxW (by decide)⟩

theorem addProjectMeta_duplicate_guard_witness :
    (addProjectMeta icW rmA idxW).2.isSome = true ∧
    (addProjectMeta icW rmA idxW).1 = idxW ∧
    (addProjectMeta icW rmC idxW).1 = idxW ++ [buildMeta icW rmC] :=
  ⟨(addProjectMeta_duplicate_guard icW rmA idxW).1.mpr ⟨pmetaA, by decide, by decide⟩,
   (addProjectMeta_duplicate_guard icW rmA idxW).2.1 ⟨pmetaA, by decide, by decide⟩,
   (addProjectMeta_duplicate_guard icW rmC idxW).2.2 (by decide)⟩

theorem nameIsUnique_spec_witness :
    nameIsUnique (some balloonW) (some ["Zephyr".data]) "aloft".data = true ∧
    nameIsUnique (some balloonW) (some ["Zephyr".data]) " zephyr ".data = false ∧
    nameIsUnique (some balloonW) none "anything".data = true :=
  ⟨(nameIsUnique_spec balloonW ["Zephyr".data] "x".data).1 "aloft".data (by decide),
   (nameIsUnique_spec balloonW ["Zephyr".data] " zephyr ".data).2.1
      ⟨"Zephyr".data, by decide, by decide⟩ (by decide),
   (nameIsUnique_spec balloonW [] "anything".data).2.2 (some balloonW)⟩

end BalloonOrg
